import Mathlib

/-!
Shallow embedding of the lox-bytecode interpreter (Rust sources under
src/src/) used to settle the specification claims. Each definition is
translated from the named source function. Conventions:
- Rust f64 numeric payloads are abstracted as Int: no claim settled here
  depends on floating-point arithmetic, only on the variant shape of the
  operands involved.
- Rc<T> heap pointers are modelled as Nat addresses; Rc::ptr_eq is
  address equality and Rc::clone copies the address.
- A Rust panic is modelled as a none / Except.error / panicked outcome.
-/

namespace Lox

/-! ### Values (src/src/value.rs) -/

inductive Value where
  | boolean (b : Bool)
  | number (n : Int)
  | nil
  | str (s : String)
  | func (addr : Nat)
  | native (typeId : Nat)
  | closure (addr : Nat)
  deriving DecidableEq, Repr

/-- Value::is_number (value.rs lines 140-142). -/
def Value.is_number : Value → Bool
  | .number _ => true
  | _ => false

/-- Value::is_falsey (value.rs lines 144-146). -/
def Value.is_falsey : Value → Bool
  | .nil => true
  | .boolean false => true
  | _ => false

/-- Value::is_string (value.rs lines 148-150). -/
def Value.is_string : Value → Bool
  | .str _ => true
  | _ => false

/-- impl PartialEq for Value (value.rs lines 42-54). Str uses
a.cmp(b) == Ordering::Equal; Func and Native compare by Rc::ptr_eq
resp. TypeId, modelled as address equality. There is no arm for two
Closure values: such a comparison falls into the final catch-all. -/
def value_eq : Value → Value → Bool
  | .boolean a, .boolean b => a == b
  | .number a, .number b => a == b
  | .str a, .str b => compare a b == Ordering.eq
  | .nil, .nil => true
  | .func a, .func b => a == b
  | .native a, .native b => a == b
  | _, _ => false

/-- impl PartialOrd for Value (value.rs lines 31-40). -/
def value_cmp : Value → Value → Option Ordering
  | .boolean a, .boolean b => some (compare a b)
  | .number a, .number b => some (compare a b)
  | .str a, .str b => some (compare a b)
  | _, _ => none

/-- PartialOrd::gt, as used by the OpCode::Greater closure. -/
def value_gt (a b : Value) : Bool :=
  match value_cmp a b with
  | some Ordering.gt => true
  | _ => false

/-- PartialOrd::lt, as used by the OpCode::Less closure. -/
def value_lt (a b : Value) : Bool :=
  match value_cmp a b with
  | some Ordering.lt => true
  | _ => false

/-- impl Add for &Value (value.rs lines 84-93); none models the panic
"Invalid operation" on any operand pair that is not two Numbers. -/
def value_add : Value → Value → Option Value
  | .number a, .number b => some (.number (a + b))
  | _, _ => none

/-- impl Sub for &Value (value.rs lines 95-104). -/
def value_sub : Value → Value → Option Value
  | .number a, .number b => some (.number (a - b))
  | _, _ => none

/-- impl Mul for &Value (value.rs lines 106-115). -/
def value_mul : Value → Value → Option Value
  | .number a, .number b => some (.number (a * b))
  | _, _ => none

/-- impl Div for &Value (value.rs lines 117-126). The numeric quotient
is abstracted (Int division stands in for f64 division); no claim
depends on the numeric result of a division. -/
def value_div : Value → Value → Option Value
  | .number a, .number b => some (.number (a / b))
  | _, _ => none

/-- The closure the VM passes to binary_op for OpCode::Greater
(vm.rs line 355). -/
def greater_op (a b : Value) : Option Value := some (.boolean (value_gt a b))

/-- The closure the VM passes to binary_op for OpCode::Less
(vm.rs line 356). -/
def less_op (a b : Value) : Option Value := some (.boolean (value_lt a b))

/-- Outcome of one VM::binary_op dispatch: the new operand stack (top
element first), a runtime error, or a Rust panic. -/
inductive BinResult where
  | ok (stack : List Value)
  | runtime_error (msg : String)
  | panicked
  deriving DecidableEq, Repr

/-- VM::binary_op (vm.rs lines 536-548) together with VM::concatenate
(vm.rs lines 550-555). The operand stack is listed top first, so peek(0)
is the head and peek(1) the second element. The string test comes first:
whenever both operands are Str the VM calls concatenate, for every
binary opcode. Display of a Str is its content, so concatenate pushes
Str (sa ++ sb) where a was below b. The op closure is reached only when
both operands are Number. Popping from a stack of fewer than two
elements would panic. -/
def binary_op (op : Value → Value → Option Value) : List Value → BinResult
  | b :: a :: rest =>
    if b.is_string && a.is_string then
      match a, b with
      | .str sa, .str sb => .ok (.str (sa ++ sb) :: rest)
      | _, _ => .panicked
    else if b.is_number && a.is_number then
      match op a b with
      | some v => .ok (v :: rest)
      | none => .panicked
    else
      .runtime_error "Operands must be two numbers or two strings."
  | _ => .panicked

/-! ### Chunk (src/src/chunk.rs) and jump emission (src/src/compiler.rs) -/

structure Chunk where
  code : List Nat
  lines : List Nat
  constants : List Value
  deriving DecidableEq, Repr

/-- Chunk::write (chunk.rs lines 58-61): push the byte and its line. -/
def Chunk.write (ch : Chunk) (byte line : Nat) : Chunk :=
  { ch with code := ch.code ++ [byte], lines := ch.lines ++ [line] }

/-- Chunk::write_at (chunk.rs lines 63-65). Rust indexing panics when
offset is out of bounds; List.set is a no-op there, and every use below
keeps the offset in bounds. -/
def Chunk.write_at (ch : Chunk) (offset byte : Nat) : Chunk :=
  { ch with code := ch.code.set offset byte }

/-- Chunk::read (chunk.rs lines 67-69), with the out-of-bounds panic
defaulted; uses below stay in bounds. -/
def Chunk.read (ch : Chunk) (ip : Nat) : Nat :=
  ch.code.getD ip 0

/-- Chunk::count (chunk.rs lines 84-86): note it is the length of the
lines table, not of the code vector. -/
def Chunk.count (ch : Chunk) : Nat :=
  ch.lines.length

/-- Chunk::add_constant (chunk.rs lines 75-78): ValueArray::write always
pushes the value and returns the previous length; the returned index is
Some exactly when it fits in a u8 (previous length at most 255). -/
def Chunk.add_constant (ch : Chunk) (v : Value) : Chunk × Option Nat :=
  ({ ch with constants := ch.constants ++ [v] },
   if ch.constants.length ≤ 255 then some ch.constants.length else none)

/-- Chunk::get_constant (chunk.rs lines 80-82) via
ValueArray::read_value; the Rust indexing panic is modelled by none. -/
def Chunk.get_constant (ch : Chunk) (i : Nat) : Option Value :=
  ch.constants.get? i

/-- Chunk::get_jump_offset (chunk.rs lines 88-90):
(code[offset] << 8) | code[offset+1]. Both bytes are below 256, so the
shift-or is multiplication and addition. -/
def Chunk.get_jump_offset (ch : Chunk) (offset : Nat) : Nat :=
  ch.read offset * 256 + ch.read (offset + 1)

/-- Compiler::emit_byte (compiler.rs lines 459-463), with the current
line passed explicitly. -/
def emit_byte (ch : Chunk) (byte line : Nat) : Chunk :=
  ch.write byte line

/-- Compiler::emit_jump (compiler.rs lines 482-487): emit the opcode and
two 0xFF placeholder bytes, return count() - 2, the offset of the first
operand byte. -/
def emit_jump (ch : Chunk) (instr line : Nat) : Chunk × Nat :=
  let ch := emit_byte (emit_byte (emit_byte ch instr line) 255 line) 255 line
  (ch, ch.count - 2)

/-- Compiler::patch_jump (compiler.rs lines 512-525): jump is
count() - offset - 2; the two operand bytes are written big-endian as
(jump >> 8) & 0xff and jump & 0xff, i.e. jump / 256 % 256 and
jump % 256. (On jump > 65535 the source raises a compile error but
still writes the truncated bytes; the claims below stay within the
16-bit range.) -/
def patch_jump (ch : Chunk) (offset : Nat) : Chunk :=
  let jump := ch.count - offset - 2
  (ch.write_at offset (jump / 256 % 256)).write_at (offset + 1) (jump % 256)

/-- A sequence of later Chunk::write calls (byte, line), standing for
whatever code the compiler emits between emit_jump and patch_jump. -/
def write_list (ch : Chunk) (ws : List (Nat × Nat)) : Chunk :=
  ws.foldl (fun c p => c.write p.1 p.2) ch

/-! ### Operand-stack cells and upvalues (src/src/vm.rs, src/src/closure.rs,
src/src/upvalues.rs)

The Rust operand stack is Vec of Rc of RefCell of Value: every slot holds a
reference-counted mutable cell. Cells are modelled as addresses into a heap
list; Rc::clone copies the address. A Closure carries the cell addresses of
its captured upvalues (Upvalue.location, upvalues.rs line 8). -/

structure VmCells where
  heap : List Value
  stack : List Nat
  upvalues : List Nat
  deriving DecidableEq, Repr

/-- VM::push (vm.rs lines 397-399): Rc::new(RefCell::new(value))
allocates a fresh cell and pushes its address. -/
def vm_push (m : VmCells) (v : Value) : VmCells :=
  { m with heap := m.heap ++ [v], stack := m.stack ++ [m.heap.length] }

/-- VM::peek (vm.rs lines 405-407) as a cell address:
stack[len - distance - 1]. -/
def peek_cell (m : VmCells) (distance : Nat) : Nat :=
  m.stack.getD (m.stack.length - distance - 1) 0

/-- VM::capture_upvalue (vm.rs lines 75-77): Rc::clone(&self.stack[offset]),
the address of the captured stack slot cell. -/
def capture_upvalue (m : VmCells) (offset : Nat) : Nat :=
  m.stack.getD offset 0

/-- Closure::push_upvalue (closure.rs lines 42-46): record the captured
cell in the closure. -/
def push_upvalue (m : VmCells) (cell : Nat) : VmCells :=
  { m with upvalues := m.upvalues ++ [cell] }

/-- OpCode::SetLocal dispatch (vm.rs lines 325-329):
stack[slot_offset + slot] = peek(0).clone(). The slot is rebound to the
top-of-stack cell; nothing is written through the cell the slot held
before. -/
def set_local (m : VmCells) (slots slot : Nat) : VmCells :=
  { m with stack := m.stack.set (slots + slot) (peek_cell m 0) }

/-- Closure::get_upvalue composed over Upvalue::value: the cell address
of upvalue i. -/
def get_upvalue_cell (m : VmCells) (i : Nat) : Nat :=
  m.upvalues.getD i 0

/-- The value currently behind upvalue i (what OpCode::GetUpvalue makes
visible). -/
def read_upvalue (m : VmCells) (i : Nat) : Option Value :=
  m.heap.get? (get_upvalue_cell m i)

/-- The value currently behind local slot (what OpCode::GetLocal makes
visible). -/
def read_local (m : VmCells) (slots slot : Nat) : Option Value :=
  m.heap.get? (m.stack.getD (slots + slot) 0)

/-- OpCode::SetUpvalue dispatch (vm.rs lines 238-242) via
Upvalue::set (upvalues.rs lines 22-24): the content of peek(0) is
written through the shared cell, in place. -/
def set_upvalue (m : VmCells) (i : Nat) : VmCells :=
  { m with
    heap := m.heap.set (get_upvalue_cell m i) (m.heap.getD (peek_cell m 0) Value.nil) }

/-! ### Classes and OpCode::Method (src/src/class.rs, src/src/vm.rs) -/

structure ClassObj where
  name : String
  methods : List (String × Nat)
  init : Option Nat
  deriving DecidableEq, Repr

/-- HashMap::insert for the method table: replace the binding if the key
is present, else add it. -/
def insert_method : List (String × Nat) → String → Nat → List (String × Nat)
  | [], k, c => [(k, c)]
  | (k0, c0) :: rest, k, c =>
      if k0 = k then (k0, c) :: rest else (k0, c0) :: insert_method rest k c

/-- HashMap::get for the method table. -/
def lookup_method : List (String × Nat) → String → Option Nat
  | [], _ => none
  | (k0, c0) :: rest, k => if k0 = k then some c0 else lookup_method rest k

/-- Class::set_init_method (class.rs lines 25-27). -/
def ClassObj.set_init_method (k : ClassObj) (c : Nat) : ClassObj :=
  { k with init := some c }

/-- Class::add_method (class.rs lines 37-43): inserts only when the
value is a Closure; any other variant is silently ignored. -/
def ClassObj.add_method (k : ClassObj) (name : String) (v : Value) : ClassObj :=
  match v with
  | .closure c => { k with methods := insert_method k.methods name c }
  | _ => k

/-- Class::get_method (class.rs lines 45-47). -/
def ClassObj.get_method (k : ClassObj) (name : String) : Option Nat :=
  lookup_method k.methods name

/-- VM::define_method (vm.rs lines 377-395) acting on the class at
peek(1) with the method value at peek(0). When name is "init" only the
init cache is set (none models the panic when that value is not a
Closure); for any other name add_method is called. The trailing pop of
the method value does not touch the class. -/
def define_method (name : String) (method : Value) (k : ClassObj) :
    Option ClassObj :=
  if name = "init" then
    match method with
    | .closure c => some (k.set_init_method c)
    | _ => none
  else
    some (k.add_method name method)

/-! ### Globals and OpCode::SetGlobal (src/src/vm.rs) -/

inductive StepResult where
  | ok (globals : List (String × Value)) (stack : List Value)
  | runtime_error (msg : String) (globals : List (String × Value))
      (stack : List Value)
  | panicked
  deriving DecidableEq, Repr

/-- HashMap::get on the globals table. -/
def lookup_global : List (String × Value) → String → Option Value
  | [], _ => none
  | (k, w) :: rest, s => if k = s then some w else lookup_global rest s

/-- The Entry::Occupied update on the globals table: replace the stored
value of an existing key; a missing key leaves the table unchanged. -/
def update_global : List (String × Value) → String → Value →
    List (String × Value)
  | [], _, _ => []
  | (k, w) :: rest, s, v =>
      if k = s then (k, v) :: rest else (k, w) :: update_global rest s v

/-- OpCode::SetGlobal dispatch (vm.rs lines 306-316) for a Str name
constant s. The VM peeks the value at the top of the stack without
popping it; the HashMap entry is occupied exactly when lookup succeeds,
in which case the stored value is replaced. Otherwise runtime_error
(vm.rs lines 557-567) reports "Undefined variable 's'." and clears the
operand stack, leaving the globals untouched. The stack is listed top
first; peeking an empty stack would panic. -/
def set_global (g : List (String × Value)) (s : String) :
    List Value → StepResult
  | [] => .panicked
  | v :: rest =>
    match lookup_global g s with
    | some _ => .ok (update_global g s v) (v :: rest)
    | none => .runtime_error ("Undefined variable '" ++ s ++ "'.") g []

/-! ### Scanner (src/src/scanner.rs, src/src/token.rs)

Loops are modelled with explicit fuel; every loop in the source strictly
increases current on each iteration, so fuel source.length + 1 is enough
and the fuel-exhaustion branch is unreachable for the inputs considered.
Char::is_alphabetic and is_alphanumeric are Unicode in Rust; the ASCII
Char.isAlpha / Char.isAlphanum stand in for them, and no claim settled
here involves non-ASCII identifiers. -/

inductive TokenType where
  | LeftParen | RightParen | LeftBrace | RightBrace | Comma | Dot
  | Minus | Plus | SemiColon | Slash | Star | Bang | BangEqual
  | Assign | Equals | Greater | GreaterEqual | Less | LessEqual
  | Identifier | String | Number | And | Class | Else | False | Fun
  | For | If | Nil | Or | Print | Return | Super | This | True | Var
  | While | Error | Eof | Undefined
  deriving DecidableEq, Repr

structure Token where
  ttype : TokenType
  lexeme : String
  line : Nat
  deriving DecidableEq, Repr

structure Scanner where
  source : List Char
  start : Nat
  current : Nat
  line : Nat
  deriving DecidableEq, Repr

/-- Scanner::new (scanner.rs lines 11-18). -/
def Scanner.new (src : String) : Scanner :=
  ⟨src.toList, 0, 0, 1⟩

/-- Scanner::is_at_end (scanner.rs lines 82-84). -/
def Scanner.is_at_end (s : Scanner) : Bool :=
  s.current == s.source.length

/-- Scanner::peek (scanner.rs lines 231-237): the NUL character at end
of input, otherwise source[current]. -/
def Scanner.peek (s : Scanner) : Char :=
  if s.is_at_end then Char.ofNat 0 else s.source.getD s.current (Char.ofNat 0)

/-- Scanner::peek_next (scanner.rs lines 239-245). The guard tests
is_at_end, i.e. current == len, but the read is source[current + 1]:
when current + 1 equals the length the Rust indexing panics, modelled
as Except.error. -/
def Scanner.peek_next (s : Scanner) : Except Unit (Option Char) :=
  if s.is_at_end then .ok none
  else
    match s.source.get? (s.current + 1) with
    | some c => .ok (some c)
    | none => .error ()

/-- Scanner::advance (scanner.rs lines 247-250): increment current and
return the character before it; callers keep the index in bounds. -/
def Scanner.advance (s : Scanner) : Char × Scanner :=
  (s.source.getD s.current (Char.ofNat 0), { s with current := s.current + 1 })

/-- Scanner::is_match (scanner.rs lines 252-261). -/
def Scanner.is_match (s : Scanner) (expected : Char) : Bool × Scanner :=
  if s.is_at_end then (false, s)
  else if s.source.getD s.current (Char.ofNat 0) != expected then (false, s)
  else (true, { s with current := s.current + 1 })

/-- Scanner::make_token (scanner.rs lines 86-92): the lexeme is
source[start..current]. -/
def Scanner.make_token (s : Scanner) (ttype : TokenType) : Token :=
  ⟨ttype, ⟨(s.source.drop s.start).take (s.current - s.start)⟩, s.line⟩

/-- Scanner::error_token (scanner.rs lines 94-100). -/
def Scanner.error_token (s : Scanner) (message : String) : Token :=
  ⟨.Error, message, s.line⟩

/-- The inner while of the comment branch of skip_whitespace
(scanner.rs lines 114-117). -/
def Scanner.skip_comment : Nat → Scanner → Scanner
  | 0, s => s
  | fuel + 1, s =>
      if s.peek == '\n' || s.is_at_end then s
      else Scanner.skip_comment fuel (s.advance).2

/-- Scanner::skip_whitespace (scanner.rs lines 102-127). The slash
branch consults peek_next, which can panic. -/
def Scanner.skip_whitespace : Nat → Scanner → Except Unit Scanner
  | 0, s => .ok s
  | fuel + 1, s =>
      let c := s.peek
      if c == ' ' || c == '\r' || c == '\t' then
        Scanner.skip_whitespace fuel (s.advance).2
      else if c == '\n' then
        Scanner.skip_whitespace fuel ({ s with line := s.line + 1 }.advance).2
      else if c == '/' then
        match s.peek_next with
        | .error e => .error e
        | .ok (some c2) =>
            if c2 == '/' then
              Scanner.skip_whitespace fuel
                (Scanner.skip_comment (s.source.length + 1) s)
            else .ok s
        | .ok none => .ok s
      else .ok s

/-- The while loop of Scanner::string (scanner.rs lines 216-221). -/
def Scanner.string_loop : Nat → Scanner → Scanner
  | 0, s => s
  | fuel + 1, s =>
      if s.peek == '"' || s.is_at_end then s
      else
        let s := if s.peek == '\n' then { s with line := s.line + 1 } else s
        Scanner.string_loop fuel (s.advance).2

/-- Scanner::string (scanner.rs lines 215-229). -/
def Scanner.string (s : Scanner) : Token × Scanner :=
  let s1 := Scanner.string_loop (s.source.length + 1) s
  if s1.is_at_end then (s1.error_token "Unterminated string.", s1)
  else
    let s2 := (s1.advance).2
    (s2.make_token .String, s2)

/-- Scanner::peek_is_alphanumeric (scanner.rs lines 137-140). -/
def Scanner.peek_is_alphanumeric (s : Scanner) : Bool :=
  let c := s.peek
  c.isAlphanum || c == '_'

/-- The while loop of Scanner::identifier (scanner.rs lines 130-132). -/
def Scanner.identifier_loop : Nat → Scanner → Scanner
  | 0, s => s
  | fuel + 1, s =>
      if s.peek_is_alphanumeric then Scanner.identifier_loop fuel (s.advance).2
      else s

/-- Scanner::check_keyword (scanner.rs lines 182-198); the unused
length argument of the source is dropped. -/
def Scanner.check_keyword (s : Scanner) (start : Nat) (rest : String)
    (ttype : TokenType) : TokenType :=
  let compare : String :=
    ⟨(s.source.drop (s.start + start)).take (s.current - (s.start + start))⟩
  if compare == rest then ttype else .Identifier

/-- Scanner::identifier_type (scanner.rs lines 142-180): the keyword
trie over the first one or two characters. -/
def Scanner.identifier_type (s : Scanner) : TokenType :=
  let c := s.source.getD s.start (Char.ofNat 0)
  if c == 'a' then s.check_keyword 1 "nd" .And
  else if c == 'c' then s.check_keyword 1 "lass" .Class
  else if c == 'e' then s.check_keyword 1 "lse" .Else
  else if c == 'f' then
    if s.current - s.start > 1 then
      let c1 := s.source.getD (s.start + 1) (Char.ofNat 0)
      if c1 == 'a' then s.check_keyword 2 "lse" .False
      else if c1 == 'o' then s.check_keyword 2 "r" .For
      else if c1 == 'u' then s.check_keyword 2 "n" .Fun
      else .Identifier
    else .Identifier
  else if c == 'i' then s.check_keyword 1 "f" .If
  else if c == 'n' then s.check_keyword 1 "il" .Nil
  else if c == 'o' then s.check_keyword 1 "r" .Or
  else if c == 'p' then s.check_keyword 1 "rint" .Print
  else if c == 'r' then s.check_keyword 1 "eturn" .Return
  else if c == 's' then s.check_keyword 1 "uper" .Super
  else if c == 't' then
    if s.current - s.start > 1 then
      let c1 := s.source.getD (s.start + 1) (Char.ofNat 0)
      if c1 == 'h' then s.check_keyword 2 "is" .This
      else if c1 == 'r' then s.check_keyword 2 "ue" .True
      else .Identifier
    else .Identifier
  else if c == 'v' then s.check_keyword 1 "ar" .Var
  else if c == 'w' then s.check_keyword 1 "hile" .While
  else .Identifier

/-- Scanner::identifier (scanner.rs lines 129-135). -/
def Scanner.identifier (s : Scanner) : Token × Scanner :=
  let s1 := Scanner.identifier_loop (s.source.length + 1) s
  (s1.make_token s1.identifier_type, s1)

/-- The digit-consuming while loops of Scanner::number
(scanner.rs lines 201-203 and 207-209). -/
def Scanner.digit_loop : Nat → Scanner → Scanner
  | 0, s => s
  | fuel + 1, s =>
      if (s.peek).isDigit then Scanner.digit_loop fuel (s.advance).2 else s

/-- Scanner::number (scanner.rs lines 200-213). After the integer
digits, when the next character is a dot the code evaluates
self.peek_next().unwrap().is_digit(10): peek_next panics when the dot
is the final character, and the unwrap would panic on None. -/
def Scanner.number (s : Scanner) : Except Unit (Token × Scanner) :=
  let s1 := Scanner.digit_loop (s.source.length + 1) s
  if s1.peek == '.' then
    match s1.peek_next with
    | .error e => .error e
    | .ok none => .error ()
    | .ok (some c) =>
        if c.isDigit then
          let s2 := (s1.advance).2
          let s3 := Scanner.digit_loop (s.source.length + 1) s2
          .ok (s3.make_token .Number, s3)
        else .ok (s1.make_token .Number, s1)
  else .ok (s1.make_token .Number, s1)

/-- Scanner::scan_token (scanner.rs lines 20-80). -/
def Scanner.scan_token (s0 : Scanner) : Except Unit (Token × Scanner) := do
  let sw ← Scanner.skip_whitespace (s0.source.length + 1) s0
  let s := { sw with start := sw.current }
  if s.is_at_end then return (s.make_token .Eof, s)
  let (c, s) := s.advance
  if c == '(' then return (s.make_token .LeftParen, s)
  else if c == ')' then return (s.make_token .RightParen, s)
  else if c == Char.ofNat 123 then return (s.make_token .LeftBrace, s)
  else if c == Char.ofNat 125 then return (s.make_token .RightBrace, s)
  else if c == ';' then return (s.make_token .SemiColon, s)
  else if c == ',' then return (s.make_token .Comma, s)
  else if c == '.' then return (s.make_token .Dot, s)
  else if c == '-' then return (s.make_token .Minus, s)
  else if c == '+' then return (s.make_token .Plus, s)
  else if c == '/' then return (s.make_token .Slash, s)
  else if c == '*' then return (s.make_token .Star, s)
  else if c == '!' then
    let (b, s) := s.is_match '='
    return (s.make_token (if b then .BangEqual else .Bang), s)
  else if c == '=' then
    let (b, s) := s.is_match '='
    return (s.make_token (if b then .Equals else .Assign), s)
  else if c == '<' then
    let (b, s) := s.is_match '='
    return (s.make_token (if b then .LessEqual else .Less), s)
  else if c == '>' then
    let (b, s) := s.is_match '='
    return (s.make_token (if b then .GreaterEqual else .Greater), s)
  else if c == '"' then return s.string
  else if c.isDigit then s.number
  else if c.isAlpha || c == '_' then return s.identifier
  else return (s.error_token "Unexpected character.", s)

theorem write_list_code (ch : Chunk) (ws : List (Nat × Nat)) :
    (write_list ch ws).code = ch.code ++ ws.map Prod.fst := by
  induction ws generalizing ch with
  | nil => simp [write_list]
  | cons w ws ih =>
      simp [write_list, List.foldl_cons] at ih ⊢
      rw [ih]
      simp [Chunk.write]

theorem write_list_lines (ch : Chunk) (ws : List (Nat × Nat)) :
    (write_list ch ws).lines = ch.lines ++ ws.map Prod.snd := by
  induction ws generalizing ch with
  | nil => simp [write_list]
  | cons w ws ih =>
      simp [write_list, List.foldl_cons] at ih ⊢
      rw [ih]
      simp [Chunk.write]

theorem getD_set_self (l : List Nat) (i a : Nat) (h : i < l.length) :
    (l.set i a).getD i 0 = a := by
  simp [List.getD, List.getElem?_set_eq_of_lt a h]

theorem getD_set_ne (l : List Nat) (i j a : Nat) (h : i ≠ j) :
    (l.set i a).getD j 0 = l.getD j 0 := by
  simp [List.getD, List.getElem?_set_ne h]

/-- Core round-trip fact: patching a chunk at an in-bounds operand
offset writes a 16-bit distance that get_jump_offset reads back. -/
theorem get_patch (ch : Chunk) (o : Nat) (h1 : o + 2 ≤ ch.code.length)
    (h2 : ch.code.length = ch.lines.length)
    (h3 : ch.count - o - 2 ≤ 65535) :
    (patch_jump ch o).get_jump_offset o = ch.count - o - 2 := by
  have ho : o < ch.code.length := by omega
  have ho1 : o + 1 < ch.code.length := by omega
  set d := ch.count - o - 2 with hd
  have hread0 :
      ((ch.write_at o (d / 256 % 256)).write_at (o + 1) (d % 256)).read o
        = d / 256 % 256 := by
    unfold Chunk.read Chunk.write_at
    rw [getD_set_ne _ _ _ _ (by omega)]
    exact getD_set_self _ _ _ ho
  have hread1 :
      ((ch.write_at o (d / 256 % 256)).write_at (o + 1) (d % 256)).read (o + 1)
        = d % 256 := by
    unfold Chunk.read Chunk.write_at
    apply getD_set_self
    simpa using ho1
  unfold patch_jump Chunk.get_jump_offset
  rw [← hd, hread0, hread1]
  omega

end Lox

namespace Lox

/-- C1: the claim says Subtract, Multiply and Divide on two string
operands fail with a runtime error. In the code the string test in
VM::binary_op precedes any look at the opcode, so all three opcodes
concatenate two strings exactly as Add does: with Str "a" below
Str "b" each produces Str "ab" and no runtime error. -/
theorem sub_mul_div_concatenate_two_strings :
    binary_op value_sub [Value.str "b", Value.str "a"] = .ok [Value.str "ab"] ∧
    binary_op value_mul [Value.str "b", Value.str "a"] = .ok [Value.str "ab"] ∧
    binary_op value_div [Value.str "b", Value.str "a"] = .ok [Value.str "ab"] ∧
    binary_op value_add [Value.str "b", Value.str "a"] = .ok [Value.str "ab"] := by
  decide

/-- C4: the claim says Greater and Less on two Str operands push a
Boolean giving the ordering of the strings. In the code the string test
in VM::binary_op precedes the opcode closure, so Greater and Less on two
strings concatenate them and push a Str, never a Boolean: with
Str "a" below Str "b", Greater pushes Str "ab" (and the PartialOrd
string ordering would have given Boolean false). -/
theorem greater_less_concatenate_two_strings :
    binary_op greater_op [Value.str "b", Value.str "a"] = .ok [Value.str "ab"] ∧
    binary_op less_op [Value.str "b", Value.str "a"] = .ok [Value.str "ab"] ∧
    value_gt (Value.str "a") (Value.str "b") = false := by
  decide

/-- C5 counterexample: the claim says a Closure value compares equal to
itself. PartialEq for Value has no Closure arm, so a Closure compared
with any Closure, itself included, falls into the catch-all and yields
false. -/
theorem closure_not_equal_to_itself :
    value_eq (Value.closure 0) (Value.closure 0) = false := by
  decide

/-- C5 amended: equality is reference identity for Func values (two
Func values compare equal exactly when they hold the same heap address),
while two Closure values always compare unequal, even a closure with
itself or with an alias of the same heap object, because PartialEq has
no Closure arm and falls through to the cross-variant default. -/
theorem func_eq_is_identity_closure_eq_is_false (a b : Nat) :
    value_eq (Value.func a) (Value.func b) = (a == b) ∧
    value_eq (Value.closure a) (Value.closure b) = false := by
  exact ⟨rfl, rfl⟩

/-- C7: jump patching round-trips with jump reading. Starting from any
chunk whose code and line tables agree in length, emit_jump returns the
operand offset o; after any sequence of further writes, if the distance
d = count - o - 2 is at most 65535, then patch_jump writes the two
operand bytes big-endian and get_jump_offset reads back exactly d. -/
theorem patch_jump_roundtrip (ch0 : Chunk) (instr line : Nat)
    (ws : List (Nat × Nat))
    (hlen : ch0.code.length = ch0.lines.length)
    (hd : (write_list (emit_jump ch0 instr line).1 ws).count
            - (emit_jump ch0 instr line).2 - 2 ≤ 65535) :
    (patch_jump (write_list (emit_jump ch0 instr line).1 ws)
        (emit_jump ch0 instr line).2).get_jump_offset
        (emit_jump ch0 instr line).2
      = (write_list (emit_jump ch0 instr line).1 ws).count
          - (emit_jump ch0 instr line).2 - 2 := by
  have hcode1 : (emit_jump ch0 instr line).1.code
      = ch0.code ++ [instr, 255, 255] := by
    simp [emit_jump, emit_byte, Chunk.write]
  have hlines1 : (emit_jump ch0 instr line).1.lines
      = ch0.lines ++ [line, line, line] := by
    simp [emit_jump, emit_byte, Chunk.write]
  have ho : (emit_jump ch0 instr line).2 = ch0.lines.length + 1 := by
    simp [emit_jump, emit_byte, Chunk.write, Chunk.count]
  apply get_patch
  · rw [write_list_code, hcode1, ho]
    simp
    omega
  · rw [write_list_code, write_list_lines, hcode1, hlines1]
    simp [hlen]
  · exact hd

/-- C7 witness: a concrete run of the round trip. The empty chunk, a
Jump opcode (byte 22), then two further writes; the patched distance
read back is the count minus the operand offset minus 2, namely 2. -/
theorem patch_jump_roundtrip_witness :
    (patch_jump (write_list (emit_jump ⟨[], [], []⟩ 22 1).1 [(15, 1), (1, 1)])
        (emit_jump ⟨[], [], []⟩ 22 1).2).get_jump_offset
        (emit_jump ⟨[], [], []⟩ 22 1).2
      = (write_list (emit_jump ⟨[], [], []⟩ 22 1).1 [(15, 1), (1, 1)]).count
          - (emit_jump ⟨[], [], []⟩ 22 1).2 - 2 :=
  patch_jump_roundtrip ⟨[], [], []⟩ 22 1 [(15, 1), (1, 1)]
    (by decide) (by decide)

/-- C8: add_constant returns None exactly when the pool already holds
256 (or, after earlier overflows, more) entries at the time of the call;
otherwise it returns Some of the number of constants before the call,
the index at which the value is then readable via get_constant. -/
theorem add_constant_none_iff_full (ch : Chunk) (v : Value) :
    ((ch.add_constant v).2 = none ↔ 256 ≤ ch.constants.length) ∧
    (ch.constants.length < 256 →
      (ch.add_constant v).2 = some ch.constants.length ∧
      (ch.add_constant v).1.get_constant ch.constants.length = some v) := by
  constructor
  · simp only [Chunk.add_constant]
    split
    · simp
      omega
    · simp
      omega
  · intro h
    constructor
    · simp [Chunk.add_constant]
      omega
    · simp [Chunk.add_constant, Chunk.get_constant]

/-- C8 witness: adding a constant to an empty pool returns index 0 and
the value is readable there. -/
theorem add_constant_none_iff_full_witness :
    ((⟨[], [], []⟩ : Chunk).add_constant (Value.number 7)).2 = some 0 ∧
    ((⟨[], [], []⟩ : Chunk).add_constant (Value.number 7)).1.get_constant 0
      = some (Value.number 7) :=
  (add_constant_none_iff_full ⟨[], [], []⟩ (Value.number 7)).2 (by decide)

/-- C10: add_constant appends the value to the constant pool on every
call, including calls that return None: after any call the pool is the
old pool with the value at the end, one entry longer. -/
theorem add_constant_always_appends (ch : Chunk) (v : Value) :
    (ch.add_constant v).1.constants = ch.constants ++ [v] ∧
    (ch.add_constant v).1.constants.length = ch.constants.length + 1 := by
  refine ⟨rfl, ?_⟩
  simp [Chunk.add_constant]

/-- C2: the claim says a write through the variable itself (SetLocal,
while the slot is live) is subsequently visible through every capturing
upvalue. In the code SetLocal rebinds the stack slot to the
top-of-stack cell instead of writing through the cell the slot held, so
a previously captured upvalue keeps reading the old cell: push local 1,
capture it as an upvalue, push 2, SetLocal; the upvalue still reads 1
while the local reads 2. A write through SetUpvalue, by contrast, goes
through the shared cell and is visible. -/
theorem set_local_invisible_through_upvalue :
    (let m0 := vm_push ⟨[], [], []⟩ (Value.number 1)
     let m1 := push_upvalue m0 (capture_upvalue m0 0)
     let m2 := vm_push m1 (Value.number 2)
     let m3 := set_local m2 0 0
     read_upvalue m3 0 = some (Value.number 1) ∧
       read_local m3 0 0 = some (Value.number 2)) ∧
    (let m0 := vm_push ⟨[], [], []⟩ (Value.number 1)
     let m1 := push_upvalue m0 (capture_upvalue m0 0)
     let m2 := vm_push m1 (Value.number 2)
     let m4 := set_upvalue m2 0
     read_upvalue m4 0 = some (Value.number 2) ∧
       read_local m4 0 0 = some (Value.number 2)) := by
  decide

/-- C3: the claim says that after a Method instruction with name n the
class maps n to the closure in its method table, also when n is "init".
In the code define_method with name "init" only sets the cached
initializer and leaves the method table untouched, so a later
get_method "init" (the lookup used by super dispatch and property
access) finds nothing; any other name is attached to the table. -/
theorem define_method_init_not_in_table :
    define_method "init" (Value.closure 7) ⟨"A", [], none⟩
      = some ⟨"A", [], some 7⟩ ∧
    ClassObj.get_method ⟨"A", [], some 7⟩ "init" = none ∧
    define_method "foo" (Value.closure 9) ⟨"A", [], none⟩
      = some ⟨"A", [("foo", 9)], none⟩ ∧
    ClassObj.get_method ⟨"A", [("foo", 9)], none⟩ "foo" = some 9 := by
  decide

/-- C6: the claim says scan_token never panics and that a numeric
literal whose dot is the last character of the source ends before the
dot. Scanning "1." panics: after the digits, peek is the dot and
peek_next reads source[current + 1] past the end of the source (its
guard tests the wrong index). When the dot is not last the Number token
does end before the dot ("1.x" gives Number "1" and a following
scan_token gives Dot "."), and "1.5" scans as one Number. -/
theorem scan_token_panics_on_trailing_dot :
    (Scanner.new "1.").scan_token = Except.error () ∧
    (Scanner.new "1.5").scan_token
      = Except.ok (⟨.Number, "1.5", 1⟩, ⟨"1.5".toList, 0, 3, 1⟩) ∧
    (Scanner.new "1.x").scan_token
      = Except.ok (⟨.Number, "1", 1⟩, ⟨"1.x".toList, 0, 1, 1⟩) ∧
    (⟨"1.x".toList, 0, 1, 1⟩ : Scanner).scan_token
      = Except.ok (⟨.Dot, ".", 1⟩, ⟨"1.x".toList, 1, 2, 1⟩) :=
  ⟨rfl, rfl, rfl, rfl⟩

/-- C9: SetGlobal with name s leaves the globals unchanged and reports
the runtime error "Undefined variable 's'." when s is absent; when s is
present it rebinds s to the value at the top of the operand stack
without popping it, and no other binding changes. -/
theorem set_global_spec (g : List (String × Value)) (s t : String)
    (v : Value) (rest : List Value) :
    set_global g s (v :: rest) =
      (match lookup_global g s with
       | some _ => .ok (update_global g s v) (v :: rest)
       | none => .runtime_error ("Undefined variable '" ++ s ++ "'.") g []) ∧
    lookup_global (update_global g s v) t =
      (if t = s ∧ (lookup_global g s).isSome then some v
       else lookup_global g t) := by
  refine ⟨rfl, ?_⟩
  induction g with
  | nil =>
      simp [lookup_global, update_global]
  | cons p rest ih =>
      obtain ⟨k, w⟩ := p
      by_cases hk : k = s
      · subst hk
        by_cases ht : t = k
        · subst ht
          simp [lookup_global, update_global]
        · have hkt : ¬(k = t) := fun h => ht h.symm
          simp [lookup_global, update_global, ht, hkt]
      · by_cases hkt : k = t
        · subst hkt
          simp [lookup_global, update_global, hk]
        · simp [lookup_global, update_global, hk, hkt, ih]

/-- C5 witness: the amended equality facts at address 3. -/
theorem func_eq_is_identity_witness :
    value_eq (Value.func 3) (Value.func 3) = (3 == 3) ∧
    value_eq (Value.closure 3) (Value.closure 3) = false :=
  func_eq_is_identity_closure_eq_is_false 3 3

/-- C9 witness: a present binding x is rebound to the peeked value
without popping it, and an absent name t is unaffected. -/
theorem set_global_spec_witness :
    (set_global [("x", Value.number 1)] "x" (Value.number 2 :: []) =
      (match lookup_global [("x", Value.number 1)] "x" with
       | some _ =>
           .ok (update_global [("x", Value.number 1)] "x" (Value.number 2))
             (Value.number 2 :: [])
       | none =>
           .runtime_error ("Undefined variable '" ++ "x" ++ "'.")
             [("x", Value.number 1)] []) ∧
    lookup_global (update_global [("x", Value.number 1)] "x" (Value.number 2))
        "y" =
      (if "y" = "x" ∧ (lookup_global [("x", Value.number 1)] "x").isSome then
        some (Value.number 2)
       else lookup_global [("x", Value.number 1)] "y")) :=
  set_global_spec [("x", Value.number 1)] "x" "y" (Value.number 2) []

/-- C10 witness: a full pool (256 entries) still gets the value
appended. -/
theorem add_constant_always_appends_witness :
    ((⟨[], [], List.replicate 256 Value.nil⟩ : Chunk).add_constant
        (Value.number 5)).1.constants
      = List.replicate 256 Value.nil ++ [Value.number 5] ∧
    ((⟨[], [], List.replicate 256 Value.nil⟩ : Chunk).add_constant
        (Value.number 5)).1.constants.length
      = (List.replicate 256 Value.nil : List Value).length + 1 :=
  add_constant_always_appends ⟨[], [], List.replicate 256 Value.nil⟩
    (Value.number 5)

end Lox
